import Mathlib

/-!
# Segment reverse proxy: the director and the health check

A shallow embedding of `src/main.go` (package `main` of Yesware/segment-proxy)
and of the parts of the Go standard library the program calls
(`strings.HasPrefix`, `strings.HasSuffix`, `fmt.Fprintln`, and
`(*url.URL).String` of `net/url` with the escaping functions it uses).

The library functions follow the sources of Go 1.22. Go strings are byte
sequences. They are modelled by Lean `String`, that is by the Go strings that
hold valid UTF-8 text. Every pattern the program tests is
ASCII, so the tests on characters below agree with Go's tests on bytes, and
`b[1:]` is only taken of a string whose first byte is the ASCII `/`.
Where the library works on single bytes (percent escaping), the model goes
through the UTF-8 bytes of the text (`bytes`).

The director mutates `*http.Request` in place; here it is a function from the
request before to the request after, one record update per assignment. The two
upstream URLs are only read, and are objects of their own (in `main` each is
the fresh result of `url.Parse`), not the URL of a request.
-/

namespace SegmentProxy

/-! ## Go strings -/

/-- Go `strings.HasPrefix(s, pre)`: `s` begins with `pre`. -/
def HasPrefix (s pre : String) : Bool := pre.data.isPrefixOf s.data

/-- Go `strings.HasSuffix(s, suf)`: `s` ends with `suf`. -/
def HasSuffix (s suf : String) : Bool := suf.data.isSuffixOf s.data

/-- Go `s[1:]`: the string without its first byte (used only after a test that
the first byte is `/`). -/
def sliceFrom1 (s : String) : String := ⟨s.data.drop 1⟩

/-- The UTF-8 encoding of one character, as byte values. -/
def utf8 (c : Char) : List Nat :=
  let n := c.toNat
  if n < 0x80 then [n]
  else if n < 0x800 then [0xC0 + n / 0x40, 0x80 + n % 0x40]
  else if n < 0x10000 then [0xE0 + n / 0x1000, 0x80 + n / 0x40 % 0x40, 0x80 + n % 0x40]
  else [0xF0 + n / 0x40000, 0x80 + n / 0x1000 % 0x40, 0x80 + n / 0x40 % 0x40, 0x80 + n % 0x40]

/-- The bytes of a list of characters. -/
def bytesOf : List Char → List Nat
  | [] => []
  | c :: cs => utf8 c ++ bytesOf cs

/-- The bytes of a Go string (what `s[i]` ranges over). -/
def bytes (s : String) : List Nat := bytesOf s.data

/-- Go `switch c { case x, y, ...: }` over the ASCII characters of `set`. -/
def oneOf (c : Nat) (set : String) : Bool := set.data.any (fun x => x.toNat == c)

/-! ## net/url: escaping -/

/-- The `encoding` modes of `net/url`. -/
inductive encoding where
  | encodePath
  | encodePathSegment
  | encodeHost
  | encodeZone
  | encodeUserPassword
  | encodeQueryComponent
  | encodeFragment
  deriving DecidableEq, Repr

open encoding

/-- The `ishex` of `net/url`. -/
def ishex (c : Nat) : Bool :=
  ('0'.toNat ≤ c && c ≤ '9'.toNat) || ('a'.toNat ≤ c && c ≤ 'f'.toNat) ||
    ('A'.toNat ≤ c && c ≤ 'F'.toNat)

/-- The `unhex` of `net/url`. -/
def unhex (c : Nat) : Nat :=
  if '0'.toNat ≤ c && c ≤ '9'.toNat then c - '0'.toNat
  else if 'a'.toNat ≤ c && c ≤ 'f'.toNat then c - 'a'.toNat + 10
  else if 'A'.toNat ≤ c && c ≤ 'F'.toNat then c - 'A'.toNat + 10
  else 0

/-- The `shouldEscape` of `net/url`: must byte `c` be escaped in a URL part of
kind `mode`. -/
def shouldEscape (c : Nat) (mode : encoding) : Bool :=
  -- unreserved characters (alphanum)
  if ('a'.toNat ≤ c && c ≤ 'z'.toNat) || ('A'.toNat ≤ c && c ≤ 'Z'.toNat) ||
      ('0'.toNat ≤ c && c ≤ '9'.toNat) then false
  -- host allows sub-delims, `:`, `[`, `]`, `<`, `>` and the double quote
  else if (mode == encodeHost || mode == encodeZone) && oneOf c "!$&'()*+,;=:[]<>\"" then false
  -- unreserved characters (mark)
  else if oneOf c "-_.~" then false
  -- reserved characters
  else if oneOf c "$&+,/:;=?@" then
    match mode with
    | encodePath => c == '?'.toNat
    | encodePathSegment => oneOf c "/;,?"
    | encodeUserPassword => oneOf c "@/?:"
    | encodeQueryComponent => true
    | encodeFragment => false
    | _ => true
  else if mode == encodeFragment && oneOf c "!()*" then false
  -- everything else must be escaped
  else true

/-- The table `upperhex` of `net/url`. -/
def upperhex : String := "0123456789ABCDEF"

/-- Go `upperhex[i]`. -/
def upperhexAt (i : Nat) : Char := upperhex.data.getD i '0'

/-- The second loop of `escape`: every byte is copied, turned into `+` (a space
in a query component) or written as `%XX`. -/
def escapeBytes : List Nat → encoding → List Char
  | [], _ => []
  | c :: cs, mode =>
    if c == ' '.toNat && mode == encodeQueryComponent then '+' :: escapeBytes cs mode
    else if shouldEscape c mode then
      '%' :: upperhexAt (c / 16) :: upperhexAt (c % 16) :: escapeBytes cs mode
    else Char.ofNat c :: escapeBytes cs mode

/-- The `escape` of `net/url`: `s` itself when no byte needs escaping, else
the escaped copy. -/
def escape (s : String) (mode : encoding) : String :=
  if (bytes s).all (fun c => !shouldEscape c mode) then s
  else ⟨escapeBytes (bytes s) mode⟩

/-- The `validEncoded` of `net/url`. -/
def validEncoded (s : String) (mode : encoding) : Bool :=
  (bytes s).all (fun c =>
    if oneOf c "!$&'()*+,;=:@" then true
    else if oneOf c "[]" then true
    else if c == '%'.toNat then true
    else !shouldEscape c mode)

/-- The `unescape` of `net/url` on the bytes of its argument; `none` is the
error return. The library checks the whole string first and decodes it in a
second loop; the two loops are fused here, a malformed or forbidden escape
anywhere giving the error. -/
def unescapeBytes : List Nat → encoding → Option (List Nat)
  | [], _ => some []
  | c :: rest, mode =>
    if c == '%'.toNat then
      match rest with
      | h1 :: h2 :: rest2 =>
        if !ishex h1 || !ishex h2 then none
        else if mode == encodeHost && unhex h1 < 8 &&
            !(h1 == '2'.toNat && h2 == '5'.toNat) then none
        else if mode == encodeZone && !(h1 == '2'.toNat && h2 == '5'.toNat) &&
            unhex h1 * 16 + unhex h2 != ' '.toNat &&
            shouldEscape (unhex h1 * 16 + unhex h2) encodeHost then none
        else (unescapeBytes rest2 mode).map (fun t => (unhex h1 * 16 + unhex h2) :: t)
      | _ => none
    else if c == '+'.toNat then
      (unescapeBytes rest mode).map (fun t =>
        (if mode == encodeQueryComponent then ' '.toNat else '+'.toNat) :: t)
    else if (mode == encodeHost || mode == encodeZone) && c < 0x80 &&
        shouldEscape c encodeHost then none
    else (unescapeBytes rest mode).map (fun t => c :: t)

/-- The `unescape` of `net/url`, returning the decoded bytes. -/
def unescape (s : String) (mode : encoding) : Option (List Nat) :=
  unescapeBytes (bytes s) mode

/-! ## net/url: the URL type and `String` -/

/-- The `url.Userinfo` of `net/url`. -/
structure Userinfo where
  username : String
  password : String
  passwordSet : Bool
  deriving DecidableEq, Repr

/-- The `(*Userinfo).String` of `net/url` (on a non-nil receiver). -/
def Userinfo.String (u : Userinfo) : String :=
  let s := escape u.username encodeUserPassword
  if u.passwordSet then s ++ ":" ++ escape u.password encodeUserPassword else s

/-- The `url.URL` of `net/url`; `User` is a pointer, `none` being nil. -/
structure URL where
  Scheme : String
  Opaque : String
  User : Option Userinfo
  Host : String
  Path : String
  RawPath : String
  OmitHost : Bool
  ForceQuery : Bool
  RawQuery : String
  Fragment : String
  RawFragment : String
  deriving DecidableEq, Repr

/-- The `(*URL).EscapedPath` of `net/url`. -/
def URL.EscapedPath (u : URL) : String :=
  if u.RawPath != "" && validEncoded u.RawPath encodePath &&
      unescape u.RawPath encodePath == some (bytes u.Path) then u.RawPath
  else if u.Path == "*" then "*"
  else escape u.Path encodePath

/-- The `(*URL).EscapedFragment` of `net/url`. -/
def URL.EscapedFragment (u : URL) : String :=
  if u.RawFragment != "" && validEncoded u.RawFragment encodeFragment &&
      unescape u.RawFragment encodeFragment == some (bytes u.Fragment) then u.RawFragment
  else escape u.Fragment encodeFragment

/-- What `String` writes for the scheme: `scheme:` when there is one. -/
def URL.schemePart (u : URL) : String :=
  if u.Scheme != "" then u.Scheme ++ ":" else ""

/-- What `String` writes for the authority (`//user@host`) when `Opaque` is
empty. -/
def URL.authorityPart (u : URL) : String :=
  if u.Scheme != "" || u.Host != "" || u.User.isSome then
    if u.OmitHost && u.Host == "" && u.User.isNone then ""
    else
      (if u.Host != "" || u.Path != "" || u.User.isSome then "//" else "") ++
      (match u.User with
        | some ui => ui.String ++ "@"
        | none => "") ++
      (if u.Host != "" then escape u.Host encodeHost else "")
  else ""

/-- What `String` writes for the path when `Opaque` is empty, `buf` being the
text written so far: a `/` before a relative path that follows a host, a `./`
before a first segment with a colon when nothing was written yet, then the
escaped path. -/
def URL.pathPart (u : URL) (buf : String) : String :=
  let path := u.EscapedPath
  let buf1 := if path != "" && path.data.head? != some '/' && u.Host != "" then buf ++ "/" else buf
  let buf2 :=
    if buf1 == "" then
      if (path.data.takeWhile (fun c => c != '/')).contains ':' then buf1 ++ "./" else buf1
    else buf1
  buf2 ++ path

/-- What `String` has written when it reaches the query: the scheme, then
`Opaque`, or else the authority and the path. -/
def URL.hierPart (u : URL) : String :=
  if u.Opaque != "" then u.schemePart ++ u.Opaque
  else u.pathPart (u.schemePart ++ u.authorityPart)

/-- What `String` writes for the query. -/
def URL.queryPart (u : URL) : String :=
  if u.ForceQuery || u.RawQuery != "" then "?" ++ u.RawQuery else ""

/-- What `String` writes for the fragment. -/
def URL.fragmentPart (u : URL) : String :=
  if u.Fragment != "" then "#" ++ u.EscapedFragment else ""

/-- The `(*URL).String` of `net/url`: the URL reassembled into one string. -/
def URL.String (u : URL) : String :=
  u.hierPart ++ u.queryPart ++ u.fragmentPart

/-! ## net/http: the request, the response writer -/

/-- The `http.Request` of `net/http`: the fields the director reads or writes
(`URL`, `Host`) and the other plain data of a request (method, protocol,
headers, body, length, peer address, request URI). -/
structure Request where
  Method : String
  URL : URL
  Proto : String
  Header : List (String × List String)
  Body : String
  ContentLength : Int
  Host : String
  RemoteAddr : String
  RequestURI : String
  deriving DecidableEq, Repr

/-- An `http.ResponseWriter`, as the body bytes written to it so far. -/
structure ResponseWriter where
  body : String
  deriving DecidableEq, Repr

/-- The `Write` of `http.ResponseWriter`: the bytes are appended to the body. -/
def ResponseWriter.Write (w : ResponseWriter) (p : String) : ResponseWriter :=
  { w with body := w.body ++ p }

/-- Go `fmt.Fprintln(w, s)` of one string operand: the operand and a newline
are written to `w`. -/
def Fprintln (w : ResponseWriter) (s : String) : ResponseWriter :=
  w.Write (s ++ "\n")

/-! ## main.go -/

/-- `singleJoiningSlash` of `main.go`. -/
def singleJoiningSlash (a b : String) : String :=
  let aslash := HasSuffix a "/"
  let bslash := HasPrefix b "/"
  if aslash && bslash then a ++ sliceFrom1 b
  else if !aslash && !bslash then a ++ "/" ++ b
  else a ++ b

/-- `healthCheck` of `main.go`. -/
def healthCheck (w : ResponseWriter) (_r : Request) : ResponseWriter :=
  Fprintln w "OK"

/-- The choice of `target` at the head of the director of
`NewSegmentReverseProxy`. -/
def NewSegmentReverseProxy.target (cdn trackingAPI : URL) (req : Request) : URL :=
  if HasPrefix req.URL.String "/v1/projects" || HasPrefix req.URL.String "/analytics.js/v1" then
    cdn
  else
    trackingAPI

/-- The `director` closure of `NewSegmentReverseProxy`: the request after the
director ran on `req`. -/
def NewSegmentReverseProxy.director (cdn trackingAPI : URL) (req : Request) : Request :=
  let target := NewSegmentReverseProxy.target cdn trackingAPI req
  let targetQuery := target.RawQuery
  let req := { req with URL := { req.URL with Scheme := target.Scheme } }
  let req := { req with URL := { req.URL with Host := target.Host } }
  let req := { req with URL := { req.URL with Path := singleJoiningSlash target.Path req.URL.Path } }
  let req :=
    if targetQuery == "" || req.URL.RawQuery == "" then
      { req with URL := { req.URL with RawQuery := targetQuery ++ req.URL.RawQuery } }
    else
      { req with URL := { req.URL with RawQuery := targetQuery ++ "&" ++ req.URL.RawQuery } }
  { req with Host := req.URL.Host }

/-- The value `url.Parse("https://cdn.segment.com")` returns in `main`. -/
def cdnURL : URL :=
  { Scheme := "https", Opaque := "", User := none, Host := "cdn.segment.com", Path := "",
    RawPath := "", OmitHost := false, ForceQuery := false, RawQuery := "", Fragment := "",
    RawFragment := "" }

/-- The value `url.Parse("https://api.segment.io")` returns in `main`. -/
def trackingAPIURL : URL :=
  { Scheme := "https", Opaque := "", User := none, Host := "api.segment.io", Path := "",
    RawPath := "", OmitHost := false, ForceQuery := false, RawQuery := "", Fragment := "",
    RawFragment := "" }

/-! ## Reference definitions, from the words of the specification -/

/-- The string `a` with one trailing `/` removed if it has one. -/
def dropOneTrailingSlash (a : String) : String :=
  if HasSuffix a "/" then ⟨a.data.dropLast⟩ else a

/-- The string `b` with one leading `/` removed if it has one. -/
def dropOneLeadingSlash (b : String) : String :=
  if HasPrefix b "/" then ⟨b.data.drop 1⟩ else b

/-! ## Sample values -/

/-- A URL with every field empty. -/
def emptyURL : URL :=
  { Scheme := "", Opaque := "", User := none, Host := "", Path := "", RawPath := "",
    OmitHost := false, ForceQuery := false, RawQuery := "", Fragment := "", RawFragment := "" }

/-- The request a Go server hands to its handlers for the request line
`GET requestURI HTTP/1.1` sent to `proxy.example.com`, `u` being the parsed
`requestURI`. -/
def getRequest (requestURI : String) (u : URL) : Request :=
  { Method := "GET", URL := u, Proto := "HTTP/1.1", Header := [("Accept", ["*/*"])], Body := "",
    ContentLength := 0, Host := "proxy.example.com", RemoteAddr := "203.0.113.7:51234",
    RequestURI := requestURI }

/-- The request for `GET /v1/%70rojects/abc/settings HTTP/1.1`: `Path` is the
decoded path and `RawPath` keeps the text received, as it is not the default
encoding of the path. -/
def escapedPathRequest : Request :=
  getRequest "/v1/%70rojects/abc/settings"
             { emptyURL with Path := "/v1/projects/abc/settings",
                             RawPath := "/v1/%70rojects/abc/settings" }

/-- The request for the absolute-form request line
`GET http://proxy.example.com/v1/projects/abc/settings HTTP/1.1`. -/
def absoluteFormRequest : Request :=
  getRequest "http://proxy.example.com/v1/projects/abc/settings"
             { emptyURL with Scheme := "http", Host := "proxy.example.com",
                             Path := "/v1/projects/abc/settings" }

/-- The request for `GET /v1/projectsX?a=b HTTP/1.1`. -/
def projectsXRequest : Request :=
  getRequest "/v1/projectsX?a=b" { emptyURL with Path := "/v1/projectsX", RawQuery := "a=b" }

/-- The request for `GET /v1/projectsX HTTP/1.1`. -/
def projectsXPlain : Request :=
  getRequest "/v1/projectsX" { emptyURL with Path := "/v1/projectsX" }

/-- The request for `GET /analytics.js/v1X HTTP/1.1`. -/
def analyticsXPlain : Request :=
  getRequest "/analytics.js/v1X" { emptyURL with Path := "/analytics.js/v1X" }

/-- The request for `GET /v1/track HTTP/1.1`. -/
def trackRequest : Request :=
  getRequest "/v1/track" { emptyURL with Path := "/v1/track" }

/-- The request for `GET /healthcheck HTTP/1.1`. -/
def healthcheckRequest : Request :=
  getRequest "/healthcheck" { emptyURL with Path := "/healthcheck" }

/-- A `POST` with the URL of `projectsXRequest` and another method, protocol,
header map, body, `Host` header and peer. -/
def projectsXPost : Request :=
  { Method := "POST", URL := { emptyURL with Path := "/v1/projectsX", RawQuery := "a=b" },
    Proto := "HTTP/2.0", Header := [("Content-Type", ["application/json"])],
    Body := "\x7b\x7d", ContentLength := 2, Host := "other.example.org",
    RemoteAddr := "198.51.100.9:4000", RequestURI := "/v1/projectsX?a=b" }

/-! ## Lemmas on strings -/

theorem data_append (s t : String) : (s ++ t).data = s.data ++ t.data := rfl

theorem hasPrefix_iff (s pre : String) : HasPrefix s pre = true ↔ pre.data <+: s.data := by
  unfold HasPrefix
  exact List.isPrefixOf_iff_prefix

theorem hasSuffix_iff (s suf : String) : HasSuffix s suf = true ↔ suf.data <:+ s.data := by
  unfold HasSuffix
  exact List.isSuffixOf_iff_suffix

theorem empty_append_str (s : String) : "" ++ s = s := by
  apply String.ext
  simp [data_append]

theorem append_empty_str (s : String) : s ++ "" = s := by
  apply String.ext
  simp [data_append]

theorem str_ne_empty_iff (s : String) : (s != "") = true ↔ s ≠ "" := by
  simp

theorem data_of_hasSuffix_slash (a : String) (h : HasSuffix a "/" = true) :
    a.data = a.data.dropLast ++ ['/'] := by
  rw [hasSuffix_iff] at h
  obtain ⟨l, hl⟩ := h
  have h1 : a.data = l ++ ['/'] := hl.symm
  rw [h1, List.dropLast_concat]

theorem data_of_hasPrefix_slash (b : String) (h : HasPrefix b "/" = true) :
    b.data = '/' :: b.data.drop 1 := by
  rw [hasPrefix_iff] at h
  obtain ⟨l, hl⟩ := h
  have h1 : b.data = '/' :: l := hl.symm
  rw [h1]
  rfl

/-! ## singleJoiningSlash -/

theorem singleJoiningSlash_eq (a b : String) :
    singleJoiningSlash a b = dropOneTrailingSlash a ++ "/" ++ dropOneLeadingSlash b := by
  unfold singleJoiningSlash dropOneTrailingSlash dropOneLeadingSlash
  cases ha : HasSuffix a "/" <;> cases hb : HasPrefix b "/"
  · simp
  · simp only [Bool.false_and, Bool.not_false, Bool.not_true, Bool.and_false, if_false,
      Bool.false_eq_true, if_true]
    apply String.ext
    have := data_of_hasPrefix_slash b hb
    simp only [data_append]
    conv_lhs => rw [this]
    simp
  · simp only [Bool.true_and, Bool.not_false, Bool.not_true, Bool.and_true, if_false,
      Bool.false_eq_true, if_true, Bool.false_and]
    apply String.ext
    have := data_of_hasSuffix_slash a ha
    simp only [data_append]
    conv_lhs => rw [this]
  · simp only [Bool.and_self, if_true, sliceFrom1]
    apply String.ext
    have := data_of_hasSuffix_slash a ha
    simp only [data_append]
    conv_lhs => rw [this]

theorem dropOneTrailingSlash_no_slash (a : String) (h : HasSuffix a "//" = false) :
    HasSuffix (dropOneTrailingSlash a) "/" = false := by
  unfold dropOneTrailingSlash
  cases ha : HasSuffix a "/"
  · simp [ha]
  · simp only [if_true]
    by_contra hc
    rw [Bool.not_eq_false, hasSuffix_iff] at hc
    obtain ⟨l, hl⟩ := hc
    have h2 : HasSuffix a "//" = true := by
      rw [hasSuffix_iff]
      refine ⟨l, ?_⟩
      rw [data_of_hasSuffix_slash a ha]
      simp only at hl
      rw [← hl]
      simp
    rw [h] at h2
    exact Bool.false_ne_true h2

theorem dropOneLeadingSlash_no_slash (b : String) (h : HasPrefix b "//" = false) :
    HasPrefix (dropOneLeadingSlash b) "/" = false := by
  unfold dropOneLeadingSlash
  cases hb : HasPrefix b "/"
  · simp [hb]
  · simp only [if_true]
    by_contra hc
    rw [Bool.not_eq_false, hasPrefix_iff] at hc
    obtain ⟨l, hl⟩ := hc
    have h2 : HasPrefix b "//" = true := by
      rw [hasPrefix_iff]
      refine ⟨l, ?_⟩
      rw [data_of_hasPrefix_slash b hb]
      simp only at hl
      rw [← hl]
      simp
    rw [h] at h2
    exact Bool.false_ne_true h2

/-! ## What the prefix test sees of a URL string -/

/-- A pattern that does not contain `c` cannot reach past a `c`: it is a prefix
of `l ++ c :: t` exactly when it is a prefix of `l`. -/
theorem prefix_append_cons_iff (c : Char) (t : List Char) :
    ∀ (p l : List Char), c ∉ p → (p <+: l ++ c :: t ↔ p <+: l) := by
  intro p
  induction p with
  | nil => intro l _; simp
  | cons x p ih =>
    intro l hc
    have hx : x ≠ c := fun h => hc (by simp [h])
    have hp : c ∉ p := fun h => hc (by simp [h])
    cases l with
    | nil =>
      simp only [List.nil_append, List.cons_prefix_cons]
      constructor
      · intro h; exact absurd h.1 hx
      · intro h; simp at h
    | cons a l =>
      simp only [List.cons_append, List.cons_prefix_cons]
      rw [ih l hp]

theorem hasPrefix_append_cons (pre : String) (c : Char) (l t : List Char) (s : String)
    (hc : c ∉ pre.data) (hs : s.data = l ++ c :: t) :
    HasPrefix s pre = decide (pre.data <+: l) := by
  rw [Bool.eq_iff_iff, hasPrefix_iff, hs, prefix_append_cons_iff c t _ l hc]
  simp

theorem hasPrefix_of_data (pre s : String) :
    HasPrefix s pre = decide (pre.data <+: s.data) := by
  rw [Bool.eq_iff_iff, hasPrefix_iff]
  simp

/-- The text `String` writes after the path is empty or starts with `?` or
`#`. -/
theorem tail_cases (u : URL) :
    (u.queryPart ++ u.fragmentPart).data = [] ∨
    (∃ t, (u.queryPart ++ u.fragmentPart).data = '?' :: t) ∨
    (∃ t, (u.queryPart ++ u.fragmentPart).data = '#' :: t) := by
  unfold URL.queryPart URL.fragmentPart
  by_cases hq : (u.ForceQuery || u.RawQuery != "") = true
  · right; left
    rw [if_pos hq]
    exact ⟨_, rfl⟩
  · rw [if_neg hq]
    by_cases hf : (u.Fragment != "") = true
    · right; right
      rw [if_pos hf]
      exact ⟨_, rfl⟩
    · left
      rw [if_neg hf]
      rfl

/-- The prefix test on the URL string only sees what is written before the
query: a pattern without `?` and `#` begins `String` exactly when it begins
`hierPart`. -/
theorem hasPrefix_String (u : URL) (pre : String) (hq : '?' ∉ pre.data) (hf : '#' ∉ pre.data) :
    HasPrefix u.String pre = HasPrefix u.hierPart pre := by
  have hd : u.String.data = u.hierPart.data ++ (u.queryPart ++ u.fragmentPart).data := by
    unfold URL.String
    simp [data_append]
  rw [hasPrefix_of_data pre u.hierPart]
  rcases tail_cases u with h | ⟨t, h⟩ | ⟨t, h⟩
  · rw [hasPrefix_of_data, hd, h, List.append_nil]
  · exact hasPrefix_append_cons pre _ _ t _ hq (by rw [hd, h])
  · exact hasPrefix_append_cons pre _ _ t _ hf (by rw [hd, h])

theorem pathPart_data (u : URL) (buf : String) :
    ∃ r, (u.pathPart buf).data = buf.data ++ r := by
  unfold URL.pathPart
  simp only
  split_ifs <;> simp only [data_append, List.append_assoc] <;> exact ⟨_, rfl⟩

/-- With a scheme, `String` starts `scheme:`. -/
theorem hierPart_data_of_scheme (u : URL) (hs : u.Scheme ≠ "") :
    ∃ r, u.hierPart.data = u.Scheme.data ++ ':' :: r := by
  have h1 : u.schemePart = u.Scheme ++ ":" := by
    unfold URL.schemePart
    simp [hs]
  unfold URL.hierPart
  split_ifs
  · rw [h1]
    exact ⟨u.Opaque.data, by simp [data_append]⟩
  · obtain ⟨r, hr⟩ := pathPart_data u (u.schemePart ++ u.authorityPart)
    rw [hr, h1]
    exact ⟨u.authorityPart.data ++ r, by simp [data_append]⟩

/-- Without a scheme, `OmitHost` changes nothing of what `String` writes before
the query. -/
theorem hierPart_omitHost (u : URL) (o : Bool) (hs : u.Scheme = "") :
    ({ u with OmitHost := o } : URL).hierPart = u.hierPart := by
  have ha : ({ u with OmitHost := o } : URL).authorityPart = u.authorityPart := by
    unfold URL.authorityPart
    simp only [hs]
    cases hh : (u.Host != "") <;> cases hu : u.User <;> simp_all
  unfold URL.hierPart
  rw [ha]
  rfl

/-- The prefix test on the URL string does not depend on `OmitHost`,
`ForceQuery` and `RawFragment`, for a pattern without `:`, `?` and `#`. -/
theorem hasPrefix_String_indep (u : URL) (o f : Bool) (rf : String) (pre : String)
    (hc : ':' ∉ pre.data) (hq : '?' ∉ pre.data) (hf : '#' ∉ pre.data) :
    HasPrefix ({ u with OmitHost := o, ForceQuery := f, RawFragment := rf } : URL).String pre =
      HasPrefix u.String pre := by
  rw [hasPrefix_String _ pre hq hf, hasPrefix_String u pre hq hf]
  have e : ({ u with OmitHost := o, ForceQuery := f, RawFragment := rf } : URL).hierPart =
      ({ u with OmitHost := o } : URL).hierPart := rfl
  rw [e]
  by_cases hs : u.Scheme = ""
  · rw [hierPart_omitHost u o hs]
  · obtain ⟨r1, h1⟩ := hierPart_data_of_scheme ({ u with OmitHost := o } : URL) hs
    obtain ⟨r2, h2⟩ := hierPart_data_of_scheme u hs
    rw [hasPrefix_append_cons pre _ _ r1 _ hc h1, hasPrefix_append_cons pre _ _ r2 _ hc h2]

/-! ## The director -/

open NewSegmentReverseProxy

/-- The request the director leaves, field by field. -/
theorem director_eq (cdn trackingAPI : URL) (req : Request) :
    director cdn trackingAPI req =
      { req with
        URL := { req.URL with
          Scheme := (target cdn trackingAPI req).Scheme
          Host := (target cdn trackingAPI req).Host
          Path := singleJoiningSlash (target cdn trackingAPI req).Path req.URL.Path
          RawQuery :=
            if (target cdn trackingAPI req).RawQuery == "" || req.URL.RawQuery == "" then
              (target cdn trackingAPI req).RawQuery ++ req.URL.RawQuery
            else (target cdn trackingAPI req).RawQuery ++ "&" ++ req.URL.RawQuery }
        Host := (target cdn trackingAPI req).Host } := by
  unfold director
  simp only
  split_ifs <;> rfl

theorem hasPrefix_of_hasPrefix_append (s a b : String) (h : HasPrefix s (a ++ b) = true) :
    HasPrefix s a = true := by
  rw [hasPrefix_iff] at h ⊢
  exact (List.prefix_append a.data b.data).trans h

theorem hasPrefix_append_self (a b : String) : HasPrefix (a ++ b) a = true := by
  rw [hasPrefix_iff]
  exact List.prefix_append a.data b.data

/-- A string that does not begin with `pre` is not `pre` followed by any text. -/
theorem ne_append_of_hasPrefix_false (s pre : String) (h : HasPrefix s pre = false) :
    ∀ rest : String, s ≠ pre ++ rest := by
  intro rest he
  rw [he, hasPrefix_append_self] at h
  exact Bool.false_ne_true h.symm

/-- A string of which no `pre ++ rest` is the whole does not begin with `pre`. -/
theorem hasPrefix_false_of_ne_append (s pre : String) (h : ∀ rest : String, s ≠ pre ++ rest) :
    HasPrefix s pre = false := by
  by_contra hc
  rw [Bool.not_eq_false, hasPrefix_iff] at hc
  obtain ⟨t, ht⟩ := hc
  exact h ⟨t⟩ (String.ext (by rw [data_append, ht]))

/-- The choice of upstream is the same for two URLs that agree on `Scheme`,
`Opaque`, `User`, `Host`, `Path` and `RawPath`. -/
theorem target_congr (cdn trackingAPI : URL) (r1 r2 : Request)
    (hScheme : r1.URL.Scheme = r2.URL.Scheme) (hOpaque : r1.URL.Opaque = r2.URL.Opaque)
    (hUser : r1.URL.User = r2.URL.User) (hHost : r1.URL.Host = r2.URL.Host)
    (hPath : r1.URL.Path = r2.URL.Path) (hRawPath : r1.URL.RawPath = r2.URL.RawPath)
    (hRawQuery : r1.URL.RawQuery = r2.URL.RawQuery)
    (hFragment : r1.URL.Fragment = r2.URL.Fragment) :
    target cdn trackingAPI r1 = target cdn trackingAPI r2 := by
  have hu : r2.URL =
      { r1.URL with OmitHost := r2.URL.OmitHost, ForceQuery := r2.URL.ForceQuery,
                    RawFragment := r2.URL.RawFragment } := by
    cases r1 with | mk m1 u1 p1 h1 b1 c1 o1 a1 q1 => ?_
    cases r2 with | mk m2 u2 p2 h2 b2 c2 o2 a2 q2 => ?_
    cases u1; cases u2
    simp_all
  unfold target
  rw [hu,
    hasPrefix_String_indep r1.URL r2.URL.OmitHost r2.URL.ForceQuery r2.URL.RawFragment
      "/v1/projects" (by decide) (by decide) (by decide),
    hasPrefix_String_indep r1.URL r2.URL.OmitHost r2.URL.ForceQuery r2.URL.RawFragment
      "/analytics.js/v1" (by decide) (by decide) (by decide)]

/-! ## The claims -/

/-- C1, as amended: the director selects `cdn` when the request's URL string
(`req.URL.String()`) begins with `/v1/projects` or with `/analytics.js/v1`, and
`trackingAPI` in every other case; the rewritten `req.URL.Scheme` and
`req.URL.Host` are those of the selected upstream. -/
theorem director_selects_by_url_string (cdn trackingAPI : URL) (req : Request) :
    ((HasPrefix req.URL.String "/v1/projects" = true ∨
        HasPrefix req.URL.String "/analytics.js/v1" = true) →
      target cdn trackingAPI req = cdn ∧
      (director cdn trackingAPI req).URL.Scheme = cdn.Scheme ∧
      (director cdn trackingAPI req).URL.Host = cdn.Host) ∧
    (¬ (HasPrefix req.URL.String "/v1/projects" = true ∨
        HasPrefix req.URL.String "/analytics.js/v1" = true) →
      target cdn trackingAPI req = trackingAPI ∧
      (director cdn trackingAPI req).URL.Scheme = trackingAPI.Scheme ∧
      (director cdn trackingAPI req).URL.Host = trackingAPI.Host) := by
  rw [director_eq]
  constructor
  · intro h
    have ht : target cdn trackingAPI req = cdn := by
      unfold target
      rw [if_pos (by simpa using h)]
    rw [ht]
    exact ⟨rfl, rfl, rfl⟩
  · intro h
    have ht : target cdn trackingAPI req = trackingAPI := by
      unfold target
      rw [if_neg (by simpa using h)]
    rw [ht]
    exact ⟨rfl, rfl, rfl⟩

/-- C1, as stated, fails: the path of `escapedPathRequest` and the path of
`absoluteFormRequest` begin with `/v1/projects`, and with the upstreams of
`main` the director sends both to the tracking API, not to the CDN. The first
is the URL the library parses from `/v1/%70rojects/abc/settings`: that text
unescapes to the path, and is not the default encoding of the path. -/
theorem path_prefix_not_decisive :
    unescape escapedPathRequest.RequestURI encodePath =
      some (bytes escapedPathRequest.URL.Path) ∧
    escape escapedPathRequest.URL.Path encodePath ≠ escapedPathRequest.RequestURI ∧
    escapedPathRequest.URL.RawPath = escapedPathRequest.RequestURI ∧
    HasPrefix escapedPathRequest.URL.Path "/v1/projects" = true ∧
    (director cdnURL trackingAPIURL escapedPathRequest).URL.Host = "api.segment.io" ∧
    (director cdnURL trackingAPIURL escapedPathRequest).URL.Host ≠ cdnURL.Host ∧
    HasPrefix absoluteFormRequest.URL.Path "/v1/projects" = true ∧
    (director cdnURL trackingAPIURL absoluteFormRequest).URL.Host = "api.segment.io" ∧
    (director cdnURL trackingAPIURL absoluteFormRequest).URL.Host ≠ cdnURL.Host := by
  decide

/-- C2: `singleJoiningSlash a b` is `a` without one trailing `/`, then `/`, then
`b` without one leading `/`; when `a` does not end in `//` and `b` does not
start with `//`, the left part does not end in `/` and the right part does not
start with `/`, so exactly one separator joins them. -/
theorem singleJoiningSlash_one_separator (a b : String) :
    singleJoiningSlash a b = dropOneTrailingSlash a ++ "/" ++ dropOneLeadingSlash b ∧
    (HasSuffix a "//" = false → HasSuffix (dropOneTrailingSlash a) "/" = false) ∧
    (HasPrefix b "//" = false → HasPrefix (dropOneLeadingSlash b) "/" = false) :=
  ⟨singleJoiningSlash_eq a b, dropOneTrailingSlash_no_slash a, dropOneLeadingSlash_no_slash b⟩

/-- C3: after the director, `req.Host` equals the rewritten `req.URL.Host`,
which is the `Host` of the selected upstream; whatever `Host` the client sent,
the result is the same. -/
theorem director_host_of_target (cdn trackingAPI : URL) (req : Request) :
    (director cdn trackingAPI req).Host = (director cdn trackingAPI req).URL.Host ∧
    (director cdn trackingAPI req).URL.Host = (target cdn trackingAPI req).Host ∧
    ∀ sent : String,
      (director cdn trackingAPI { req with Host := sent }).Host =
        (target cdn trackingAPI req).Host := by
  refine ⟨?_, ?_, ?_⟩
  · rw [director_eq]
  · rw [director_eq]
  · intro sent
    rw [director_eq]
    rfl

/-- C4: the rewritten query is the upstream's query, `&`, the request's query
when both are non-empty; otherwise it is the one that is non-empty, or empty
when both are, with no `&`. In every case it is the upstream's query, a
separator, the request's query, the separator being `&` exactly when both
queries are non-empty and empty otherwise: no query is dropped and no `&`
stands at either end that was not in a query. -/
theorem director_rawQuery (cdn trackingAPI : URL) (req : Request) :
    ((director cdn trackingAPI req).URL.RawQuery =
      if (target cdn trackingAPI req).RawQuery ≠ "" ∧ req.URL.RawQuery ≠ "" then
        (target cdn trackingAPI req).RawQuery ++ "&" ++ req.URL.RawQuery
      else if (target cdn trackingAPI req).RawQuery ≠ "" then
        (target cdn trackingAPI req).RawQuery
      else req.URL.RawQuery) ∧
    ∃ sep : String,
      (sep = "" ∨ sep = "&") ∧
      (sep = "&" ↔ (target cdn trackingAPI req).RawQuery ≠ "" ∧ req.URL.RawQuery ≠ "") ∧
      (director cdn trackingAPI req).URL.RawQuery =
        (target cdn trackingAPI req).RawQuery ++ sep ++ req.URL.RawQuery := by
  have hne : ("" : String) ≠ "&" := by decide
  rw [director_eq]
  simp only
  by_cases ht : (target cdn trackingAPI req).RawQuery = ""
  · refine ⟨by simp [ht, empty_append_str], "", Or.inl rfl, ?_, ?_⟩
    · simp [ht, hne]
    · simp [ht, empty_append_str]
  · by_cases hr : req.URL.RawQuery = ""
    · refine ⟨by simp [ht, hr, append_empty_str], "", Or.inl rfl, ?_, ?_⟩
      · simp [hr, hne]
      · simp [hr, append_empty_str]
    · refine ⟨by simp [ht, hr], "&", Or.inr rfl, ?_, ?_⟩
      · simp [ht, hr]
      · simp [ht, hr]

/-- C5: the director changes only `URL.Scheme`, `URL.Host`, `URL.Path`,
`URL.RawQuery` and `Host`: the request after is the request before with these
five fields replaced, so the method, the headers, the body and every other URL
field are as before. -/
theorem director_frame (cdn trackingAPI : URL) (req : Request) :
    director cdn trackingAPI req =
      { req with
        URL := { req.URL with
          Scheme := (director cdn trackingAPI req).URL.Scheme
          Host := (director cdn trackingAPI req).URL.Host
          Path := (director cdn trackingAPI req).URL.Path
          RawQuery := (director cdn trackingAPI req).URL.RawQuery }
        Host := (director cdn trackingAPI req).Host } ∧
    (director cdn trackingAPI req).Method = req.Method ∧
    (director cdn trackingAPI req).Header = req.Header ∧
    (director cdn trackingAPI req).Body = req.Body ∧
    (director cdn trackingAPI req).Proto = req.Proto ∧
    (director cdn trackingAPI req).ContentLength = req.ContentLength ∧
    (director cdn trackingAPI req).RemoteAddr = req.RemoteAddr ∧
    (director cdn trackingAPI req).RequestURI = req.RequestURI ∧
    (director cdn trackingAPI req).URL.Opaque = req.URL.Opaque ∧
    (director cdn trackingAPI req).URL.User = req.URL.User ∧
    (director cdn trackingAPI req).URL.RawPath = req.URL.RawPath ∧
    (director cdn trackingAPI req).URL.OmitHost = req.URL.OmitHost ∧
    (director cdn trackingAPI req).URL.ForceQuery = req.URL.ForceQuery ∧
    (director cdn trackingAPI req).URL.Fragment = req.URL.Fragment ∧
    (director cdn trackingAPI req).URL.RawFragment = req.URL.RawFragment := by
  rw [director_eq]
  exact ⟨rfl, rfl, rfl, rfl, rfl, rfl, rfl, rfl, rfl, rfl, rfl, rfl, rfl, rfl, rfl⟩

/-- C6, as amended: whatever the request, `healthCheck` writes the same bytes,
the text `OK` followed by a newline. -/
theorem healthCheck_static (w : ResponseWriter) (r r2 : Request) :
    (healthCheck w r).body = w.body ++ "OK\n" ∧ healthCheck w r2 = healthCheck w r :=
  ⟨rfl, rfl⟩

/-- C6, as stated, fails: the body written to an empty response is `OK` and a
newline, three bytes, not the two bytes `OK`. -/
theorem healthCheck_body_not_OK :
    (healthCheck { body := "" } healthcheckRequest).body = "OK\n" ∧
    (healthCheck { body := "" } healthcheckRequest).body ≠ "OK" := by
  decide

/-- C7: with the upstreams of `main`, a request whose path begins with `/`
keeps its path and its query string; the scheme becomes `https` and the host
`cdn.segment.com` or `api.segment.io`. -/
theorem director_main_keeps_path_and_query (req : Request)
    (h : HasPrefix req.URL.Path "/" = true) :
    (director cdnURL trackingAPIURL req).URL.Path = req.URL.Path ∧
    (director cdnURL trackingAPIURL req).URL.RawQuery = req.URL.RawQuery ∧
    (director cdnURL trackingAPIURL req).URL.Scheme = "https" ∧
    ((director cdnURL trackingAPIURL req).URL.Host = "cdn.segment.com" ∨
      (director cdnURL trackingAPIURL req).URL.Host = "api.segment.io") := by
  have hj : ∀ b : String, HasPrefix b "/" = true → singleJoiningSlash "" b = b := by
    intro b hb
    unfold singleJoiningSlash
    have : HasSuffix "" "/" = false := by decide
    simp [this, hb, empty_append_str]
  rw [director_eq]
  have ht : target cdnURL trackingAPIURL req = cdnURL ∨
      target cdnURL trackingAPIURL req = trackingAPIURL := by
    unfold target
    split_ifs
    · exact Or.inl rfl
    · exact Or.inr rfl
  rcases ht with ht | ht <;> rw [ht]
  · refine ⟨hj _ h, ?_, rfl, Or.inl rfl⟩
    simp [cdnURL, empty_append_str]
  · refine ⟨hj _ h, ?_, rfl, Or.inr rfl⟩
    simp [trackingAPIURL, empty_append_str]

/-- Witness of C7 on the request `GET /v1/projectsX?a=b`. -/
theorem director_main_keeps_path_and_query_witness :
    HasPrefix projectsXRequest.URL.Path "/" = true ∧
    (director cdnURL trackingAPIURL projectsXRequest).URL.Path = projectsXRequest.URL.Path ∧
    (director cdnURL trackingAPIURL projectsXRequest).URL.RawQuery =
      projectsXRequest.URL.RawQuery ∧
    (director cdnURL trackingAPIURL projectsXRequest).URL.Scheme = "https" ∧
    ((director cdnURL trackingAPIURL projectsXRequest).URL.Host = "cdn.segment.com" ∨
      (director cdnURL trackingAPIURL projectsXRequest).URL.Host = "api.segment.io") :=
  ⟨by decide, director_main_keeps_path_and_query projectsXRequest (by decide)⟩

/-- C8: the upstream is chosen from the URL string of the request as received,
by a plain string prefix. A request whose URL string does not begin with `/`
goes to `trackingAPI`, whatever its path. A request whose URL string is
`/v1/projects` followed by any text (`/v1/projectsX` for one), or
`/analytics.js/v1` followed by any text, goes to `cdn`. A request whose URL
string is neither goes to `trackingAPI`. -/
theorem target_reads_url_string (cdn trackingAPI : URL) (req : Request) :
    (HasPrefix req.URL.String "/" = false →
      target cdn trackingAPI req = trackingAPI ∧
      (director cdn trackingAPI req).URL.Scheme = trackingAPI.Scheme ∧
      (director cdn trackingAPI req).URL.Host = trackingAPI.Host) ∧
    (∀ rest : String, req.URL.String = "/v1/projects" ++ rest →
      target cdn trackingAPI req = cdn ∧
      (director cdn trackingAPI req).URL.Scheme = cdn.Scheme ∧
      (director cdn trackingAPI req).URL.Host = cdn.Host) ∧
    (∀ rest : String, req.URL.String = "/analytics.js/v1" ++ rest →
      target cdn trackingAPI req = cdn ∧
      (director cdn trackingAPI req).URL.Scheme = cdn.Scheme ∧
      (director cdn trackingAPI req).URL.Host = cdn.Host) ∧
    ((∀ rest : String, req.URL.String ≠ "/v1/projects" ++ rest) →
      (∀ rest : String, req.URL.String ≠ "/analytics.js/v1" ++ rest) →
      target cdn trackingAPI req = trackingAPI ∧
      (director cdn trackingAPI req).URL.Scheme = trackingAPI.Scheme ∧
      (director cdn trackingAPI req).URL.Host = trackingAPI.Host) := by
  rw [director_eq]
  refine ⟨?_, ?_, ?_, ?_⟩
  · intro h
    have h1 : HasPrefix req.URL.String "/v1/projects" = false := by
      by_contra hc
      rw [Bool.not_eq_false] at hc
      have := hasPrefix_of_hasPrefix_append req.URL.String "/" "v1/projects" hc
      rw [h] at this
      exact Bool.false_ne_true this
    have h2 : HasPrefix req.URL.String "/analytics.js/v1" = false := by
      by_contra hc
      rw [Bool.not_eq_false] at hc
      have := hasPrefix_of_hasPrefix_append req.URL.String "/" "analytics.js/v1" hc
      rw [h] at this
      exact Bool.false_ne_true this
    have ht : target cdn trackingAPI req = trackingAPI := by
      unfold target
      rw [h1, h2]
      rfl
    rw [ht]
    exact ⟨rfl, rfl, rfl⟩
  · intro rest h
    have ht : target cdn trackingAPI req = cdn := by
      unfold target
      rw [h, hasPrefix_append_self]
      rfl
    rw [ht]
    exact ⟨rfl, rfl, rfl⟩
  · intro rest h
    have ht : target cdn trackingAPI req = cdn := by
      unfold target
      rw [h, hasPrefix_append_self, Bool.or_true]
      rfl
    rw [ht]
    exact ⟨rfl, rfl, rfl⟩
  · intro h1 h2
    have ht : target cdn trackingAPI req = trackingAPI := by
      unfold target
      rw [hasPrefix_false_of_ne_append _ _ h1, hasPrefix_false_of_ne_append _ _ h2]
      rfl
    rw [ht]
    exact ⟨rfl, rfl, rfl⟩

/-- Witness of C8: the absolute-form request has a path that begins with
`/v1/projects` and a URL string that does not begin with `/`, and goes to the
tracking API; the URL string `/v1/projectsX` goes to the CDN, although the URL
string of the rewritten request no longer begins with `/v1/projects`; the URL
string `/analytics.js/v1X` goes to the CDN; the URL string `/v1/track` goes to
the tracking API. -/
theorem target_reads_url_string_witness :
    (HasPrefix absoluteFormRequest.URL.Path "/v1/projects" = true ∧
      absoluteFormRequest.URL.String = "http://proxy.example.com/v1/projects/abc/settings" ∧
      HasPrefix absoluteFormRequest.URL.String "/" = false ∧
      target cdnURL trackingAPIURL absoluteFormRequest = trackingAPIURL ∧
      (director cdnURL trackingAPIURL absoluteFormRequest).URL.Scheme = trackingAPIURL.Scheme ∧
      (director cdnURL trackingAPIURL absoluteFormRequest).URL.Host = trackingAPIURL.Host) ∧
    (projectsXPlain.URL.String = "/v1/projects" ++ "X" ∧
      (director cdnURL trackingAPIURL projectsXPlain).URL.String =
        "https://cdn.segment.com/v1/projectsX" ∧
      target cdnURL trackingAPIURL projectsXPlain = cdnURL ∧
      (director cdnURL trackingAPIURL projectsXPlain).URL.Scheme = cdnURL.Scheme ∧
      (director cdnURL trackingAPIURL projectsXPlain).URL.Host = cdnURL.Host) ∧
    (analyticsXPlain.URL.String = "/analytics.js/v1" ++ "X" ∧
      (director cdnURL trackingAPIURL analyticsXPlain).URL.Host = "cdn.segment.com" ∧
      target cdnURL trackingAPIURL analyticsXPlain = cdnURL ∧
      (director cdnURL trackingAPIURL analyticsXPlain).URL.Scheme = cdnURL.Scheme ∧
      (director cdnURL trackingAPIURL analyticsXPlain).URL.Host = cdnURL.Host) ∧
    (trackRequest.URL.String = "/v1/track" ∧
      (director cdnURL trackingAPIURL trackRequest).URL.Host = "api.segment.io" ∧
      target cdnURL trackingAPIURL trackRequest = trackingAPIURL ∧
      (director cdnURL trackingAPIURL trackRequest).URL.Scheme = trackingAPIURL.Scheme ∧
      (director cdnURL trackingAPIURL trackRequest).URL.Host = trackingAPIURL.Host) :=
  ⟨⟨by decide, by decide, by decide,
      (target_reads_url_string cdnURL trackingAPIURL absoluteFormRequest).1 (by decide)⟩,
    ⟨by decide, by decide,
      (target_reads_url_string cdnURL trackingAPIURL projectsXPlain).2.1 "X" (by decide)⟩,
    ⟨by decide, by decide,
      (target_reads_url_string cdnURL trackingAPIURL analyticsXPlain).2.2.1 "X" (by decide)⟩,
    ⟨by decide, by decide,
      (target_reads_url_string cdnURL trackingAPIURL trackRequest).2.2.2
        (ne_append_of_hasPrefix_false _ _ (by decide))
        (ne_append_of_hasPrefix_false _ _ (by decide))⟩⟩

/-- C9: two requests whose URLs have the same `Scheme`, `Host`, `Path`,
`RawPath`, `RawQuery`, `Fragment`, `User` and `Opaque` leave the director with
the same `URL.Scheme`, `URL.Host`, `URL.Path`, `URL.RawQuery` and `Host`,
whatever their methods, headers, bodies and incoming `Host` headers. -/
theorem director_depends_on_url_only (cdn trackingAPI : URL) (r1 r2 : Request)
    (hScheme : r1.URL.Scheme = r2.URL.Scheme) (hHost : r1.URL.Host = r2.URL.Host)
    (hPath : r1.URL.Path = r2.URL.Path) (hRawPath : r1.URL.RawPath = r2.URL.RawPath)
    (hRawQuery : r1.URL.RawQuery = r2.URL.RawQuery)
    (hFragment : r1.URL.Fragment = r2.URL.Fragment)
    (hUser : r1.URL.User = r2.URL.User) (hOpaque : r1.URL.Opaque = r2.URL.Opaque) :
    (director cdn trackingAPI r1).URL.Scheme = (director cdn trackingAPI r2).URL.Scheme ∧
    (director cdn trackingAPI r1).URL.Host = (director cdn trackingAPI r2).URL.Host ∧
    (director cdn trackingAPI r1).URL.Path = (director cdn trackingAPI r2).URL.Path ∧
    (director cdn trackingAPI r1).URL.RawQuery = (director cdn trackingAPI r2).URL.RawQuery ∧
    (director cdn trackingAPI r1).Host = (director cdn trackingAPI r2).Host := by
  have ht := target_congr cdn trackingAPI r1 r2 hScheme hOpaque hUser hHost hPath hRawPath
    hRawQuery hFragment
  rw [director_eq, director_eq]
  simp only [ht, hPath, hRawQuery, and_self]

/-- Witness of C9: a `GET` and a `POST` for the same URL, with different
headers, bodies and `Host` headers. -/
theorem director_depends_on_url_only_witness :
    projectsXRequest.Method ≠ projectsXPost.Method ∧
    projectsXRequest.Header ≠ projectsXPost.Header ∧
    projectsXRequest.Body ≠ projectsXPost.Body ∧
    projectsXRequest.Host ≠ projectsXPost.Host ∧
    (director cdnURL trackingAPIURL projectsXRequest).URL.Scheme =
      (director cdnURL trackingAPIURL projectsXPost).URL.Scheme ∧
    (director cdnURL trackingAPIURL projectsXRequest).URL.Host =
      (director cdnURL trackingAPIURL projectsXPost).URL.Host ∧
    (director cdnURL trackingAPIURL projectsXRequest).URL.Path =
      (director cdnURL trackingAPIURL projectsXPost).URL.Path ∧
    (director cdnURL trackingAPIURL projectsXRequest).URL.RawQuery =
      (director cdnURL trackingAPIURL projectsXPost).URL.RawQuery ∧
    (director cdnURL trackingAPIURL projectsXRequest).Host =
      (director cdnURL trackingAPIURL projectsXPost).Host :=
  ⟨by decide, by decide, by decide, by decide,
    director_depends_on_url_only cdnURL trackingAPIURL projectsXRequest projectsXPost
      rfl rfl rfl rfl rfl rfl rfl rfl⟩

/-- Witness of C1 as amended: the URL string `/v1/projectsX?a=b` begins with
`/v1/projects` and goes to the CDN; the URL string `/v1/%70rojects/abc/settings`
begins with neither pattern and goes to the tracking API. -/
theorem director_selects_by_url_string_witness :
    (projectsXRequest.URL.String = "/v1/projectsX?a=b" ∧
      target cdnURL trackingAPIURL projectsXRequest = cdnURL ∧
      (director cdnURL trackingAPIURL projectsXRequest).URL.Scheme = cdnURL.Scheme ∧
      (director cdnURL trackingAPIURL projectsXRequest).URL.Host = cdnURL.Host) ∧
    (escapedPathRequest.URL.String = "/v1/%70rojects/abc/settings" ∧
      target cdnURL trackingAPIURL escapedPathRequest = trackingAPIURL ∧
      (director cdnURL trackingAPIURL escapedPathRequest).URL.Scheme = trackingAPIURL.Scheme ∧
      (director cdnURL trackingAPIURL escapedPathRequest).URL.Host = trackingAPIURL.Host) :=
  ⟨⟨by decide,
      (director_selects_by_url_string cdnURL trackingAPIURL projectsXRequest).1 (by decide)⟩,
    ⟨by decide,
      (director_selects_by_url_string cdnURL trackingAPIURL escapedPathRequest).2 (by decide)⟩⟩

/-- Witness of C2: `/base/` and `/v1/t` are joined by one `/`, and so are
`/base` and `v1/t`. -/
theorem singleJoiningSlash_one_separator_witness :
    (singleJoiningSlash "/base/" "/v1/t" = "/base" ++ "/" ++ "v1/t" ∧
      HasSuffix (dropOneTrailingSlash "/base/") "/" = false ∧
      HasPrefix (dropOneLeadingSlash "/v1/t") "/" = false) ∧
    singleJoiningSlash "/base" "v1/t" = "/base/v1/t" :=
  ⟨⟨(singleJoiningSlash_one_separator "/base/" "/v1/t").1,
      (singleJoiningSlash_one_separator "/base/" "/v1/t").2.1 (by decide),
      (singleJoiningSlash_one_separator "/base/" "/v1/t").2.2 (by decide)⟩,
    by decide⟩

end SegmentProxy
